import Mathlib

/-!
Verification development for the PySyft-TensorFlow hooking layer
(`syft_tensorflow/hook/hook.py`).

Python classes and modules are modelled shallowly as association lists from
attribute names to opaque attribute values (`Nat` codes).  `setattr` replaces
any existing binding, `getattr`/`hasattr` look a name up, and `dir()` returns
the sorted, duplicate-free list of attribute names, as in CPython.
-/

/-- An attribute table: the `__dict__`-like view of a Python class or module.
Attribute values (function objects, classes, constants) are opaque `Nat` codes. -/
abbrev Attrs := List (String × Nat)

/-- Model of `getattr(t, k)` / dictionary lookup (first binding wins). -/
def getA (t : Attrs) (k : String) : Option Nat :=
  (t.find? (fun p => p.1 == k)).map (·.2)

/-- Model of `setattr(t, k, v)`: replaces any existing binding for `k`. -/
def setA (t : Attrs) (k : String) (v : Nat) : Attrs :=
  (k, v) :: t.filter (fun p => p.1 != k)

/-- The raw attribute names of a table (with possible duplicates). -/
def keysA (t : Attrs) : List String := t.map (·.1)

theorem getA_setA_self (t : Attrs) (k : String) (v : Nat) :
    getA (setA t k v) k = some v := by
  simp [getA, setA, List.find?]

theorem find?_filter_ne (r : Attrs) {k k' : String} (h : k' ≠ k) :
    List.find? (fun p => p.1 == k') (r.filter (fun p => p.1 != k)) =
      List.find? (fun p => p.1 == k') r := by
  induction r with
  | nil => rfl
  | cons p r ih =>
    by_cases hp : p.1 = k
    · have h2 : (k == k') = false := by simp [Ne.symm h]
      simp [List.filter_cons, List.find?_cons, hp, h2, ih]
    · by_cases hq : p.1 = k'
      · simp [List.filter_cons, List.find?_cons, hp, hq, h]
      · simp [List.filter_cons, List.find?_cons, hp, hq, ih]

theorem getA_setA_ne (t : Attrs) {k k' : String} (h : k' ≠ k) (v : Nat) :
    getA (setA t k v) k' = getA t k' := by
  simp only [getA, setA, List.find?_cons]
  have hk : ((k, v).1 == k') = false := by simp [Ne.symm h]
  simp only [hk]
  rw [find?_filter_ne t h]

theorem getA_isSome_iff_mem_keysA {t : Attrs} {k : String} :
    (getA t k).isSome ↔ k ∈ keysA t := by
  induction t with
  | nil => simp [getA, keysA]
  | cons p r ih =>
    by_cases hp : p.1 = k
    · simp [getA, keysA, List.find?, hp]
    · have hp' : (p.1 == k) = false := by simp [hp]
      simp only [getA, keysA, List.find?, hp', List.map_cons, List.mem_cons]
      rw [← keysA, ← getA]
      simp only [ih]
      constructor
      · exact Or.inr
      · rintro (hk | hk)
        · exact absurd hk.symm hp
        · exact hk

theorem mem_keysA_setA {t : Attrs} {k k' : String} {v : Nat} :
    k' ∈ keysA (setA t k v) ↔ k' = k ∨ k' ∈ keysA t := by
  simp only [keysA, setA, List.map_cons, List.mem_cons]
  constructor
  · rintro (h | h)
    · exact Or.inl h
    · right
      obtain ⟨p, hp, rfl⟩ := List.mem_map.mp h
      exact List.mem_map.mpr ⟨p, (List.mem_filter.mp hp).1, rfl⟩
  · rintro (h | h)
    · exact Or.inl h
    · by_cases hk : k' = k
      · exact Or.inl hk
      · right
        obtain ⟨p, hp, rfl⟩ := List.mem_map.mp h
        exact List.mem_map.mpr ⟨p, List.mem_filter.mpr ⟨hp, by simp [hk]⟩, rfl⟩

/- Sorting of attribute names, modelling the sorted order of CPython `dir()`. -/

/-- Lexicographic comparison of character lists by code point. -/
def charListLt : List Char → List Char → Bool
  | [], [] => false
  | [], _ :: _ => true
  | _ :: _, [] => false
  | a :: as, b :: bs =>
    if a.toNat < b.toNat then true
    else if b.toNat < a.toNat then false
    else charListLt as bs

/-- Boolean string comparison used to sort `dir()` output. -/
def strLtB (a b : String) : Bool := charListLt a.data b.data

/-- Insert a name into a sorted list of names. -/
def insertName (a : String) : List String → List String
  | [] => [a]
  | b :: r => if strLtB a b then a :: b :: r else b :: insertName a r

/-- Insertion sort on attribute names. -/
def sortNames : List String → List String
  | [] => []
  | a :: r => insertName a (sortNames r)

theorem insertName_perm (a : String) (l : List String) :
    List.Perm (insertName a l) (a :: l) := by
  induction l with
  | nil => rfl
  | cons b r ih =>
    rw [insertName]
    by_cases h : strLtB a b
    · simp [h]
    · simp only [h, if_false]
      exact (ih.cons b).trans (List.Perm.swap a b r)

theorem sortNames_perm (l : List String) : List.Perm (sortNames l) l := by
  induction l with
  | nil => rfl
  | cons a r ih =>
    rw [sortNames]
    exact (insertName_perm a (sortNames r)).trans (ih.cons a)

/-- Model of `dir(t)`: the sorted, duplicate-free attribute names. -/
def dirA (t : Attrs) : List String := sortNames (keysA t).dedup

theorem mem_dirA {t : Attrs} {k : String} : k ∈ dirA t ↔ k ∈ keysA t := by
  rw [dirA, (sortNames_perm _).mem_iff, List.mem_dedup]

theorem nodup_dirA (t : Attrs) : (dirA t).Nodup :=
  ((sortNames_perm _).nodup_iff).mpr (List.nodup_dedup _)

/- The `native_` marker used for aliases of pre-hook implementations. -/

/-- Whether a name begins with the `native_` alias marker. -/
def startsWithNative (s : String) : Bool := "native_".data.isPrefixOf s.data

theorem startsWithNative_append (b : String) :
    startsWithNative ("native_" ++ b) = true := by
  rw [startsWithNative, String.data_append]
  simp [List.isPrefixOf_iff_prefix]

theorem native_append_inj {a b : String} (h : "native_" ++ a = "native_" ++ b) :
    a = b := by
  have h2 := congrArg String.data h
  rw [String.data_append, String.data_append] at h2
  exact String.ext (List.append_cancel_left h2)

theorem ne_native_append_of_not_marked {a b : String}
    (h : startsWithNative a = false) : a ≠ "native_" ++ b := by
  intro hab
  rw [hab, startsWithNative_append] at h
  cases h

/- Embedding of `TensorFlowHook._add_methods_from_native_tensor`
   (src/syft_tensorflow/hook/hook.py, lines 256-302). -/

/-- The fixed exclusion list of structural/dunder names from
`_add_methods_from_native_tensor` (the `"__eq__"` entry is commented out in the
source and therefore absent here). -/
def exclude : List String :=
  ["__class__", "__delattr__", "__dir__", "__doc__", "__dict__", "__format__",
   "__getattribute__", "__hash__", "__init__", "__init_subclass__",
   "__weakref__", "__ne__", "__new__", "__reduce__", "__reduce_ex__",
   "__setattr__", "__sizeof__", "__subclasshook__", "__gt__", "__ge__",
   "__lt__", "__le__"]

/-- One iteration of the `for attr in dir(syft_type)` loop: if `attr` is not
excluded, alias the existing `tensor_type` attribute (when present) under
`native_<attr>`, then copy the `syft_type` implementation onto `tensor_type`.
The source performs `getattr(syft_type, attr)` on a name of `dir(syft_type)`,
which always succeeds; a missing binding is modelled as a no-op. -/
def addMethodsStep (tensor_type syft_type : Attrs) (attr : String) : Attrs :=
  if attr ∈ exclude then tensor_type
  else
    let t1 := match getA tensor_type attr with
      | some v => setA tensor_type ("native_" ++ attr) v
      | none => tensor_type
    match getA syft_type attr with
      | some pv => setA t1 attr pv
      | none => t1

/-- Embedding of `_add_methods_from_native_tensor(tensor_type, syft_type)`:
for all `attr` in `dir(syft_type)` not in `exclude`, alias a pre-existing
`tensor_type.<attr>` as `native_<attr>` (unconditionally) and set
`tensor_type.<attr>` to the proxy implementation. -/
def _add_methods_from_native_tensor (tensor_type syft_type : Attrs) : Attrs :=
  (dirA syft_type).foldl (fun t attr => addMethodsStep t syft_type attr) tensor_type

theorem addMethodsStep_frame (T P : Attrs) (attr k : String)
    (h1 : k ≠ attr) (h2 : k ≠ "native_" ++ attr) :
    getA (addMethodsStep T P attr) k = getA T k := by
  unfold addMethodsStep
  by_cases he : attr ∈ exclude
  · simp [he]
  · simp only [he, if_false]
    cases hT : getA T attr <;> cases hP : getA P attr <;>
      simp [getA_setA_ne _ h1, getA_setA_ne _ h2]

theorem foldl_addMethodsStep_frame (P : Attrs) (l : List String) (T : Attrs)
    (k : String) (h : ∀ b ∈ l, k ≠ b ∧ k ≠ "native_" ++ b) :
    getA (l.foldl (fun t attr => addMethodsStep t P attr) T) k = getA T k := by
  induction l generalizing T with
  | nil => rfl
  | cons b r ih =>
    rw [List.foldl_cons, ih _ (fun x hx => h x (List.mem_cons_of_mem b hx)),
      addMethodsStep_frame T P b k (h b (List.mem_cons_self b r)).1
        (h b (List.mem_cons_self b r)).2]

theorem addMethodsStep_target (T P : Attrs) (attr : String) (pv : Nat)
    (hne : attr ∉ exclude) (hP : getA P attr = some pv)
    (hnn : startsWithNative attr = false) :
    getA (addMethodsStep T P attr) attr = some pv ∧
      (∀ tv, getA T attr = some tv →
        getA (addMethodsStep T P attr) ("native_" ++ attr) = some tv) := by
  have hna : ("native_" ++ attr) ≠ attr :=
    fun hc => ne_native_append_of_not_marked hnn hc.symm
  cases hT : getA T attr with
  | none =>
    constructor
    · unfold addMethodsStep
      rw [if_neg hne]
      simp only [hT, hP]
      exact getA_setA_self _ _ _
    · intro tv htv
      exact Option.noConfusion htv
  | some tv0 =>
    constructor
    · unfold addMethodsStep
      rw [if_neg hne]
      simp only [hT, hP]
      exact getA_setA_self _ _ _
    · intro tv htv
      injection htv with heq
      subst heq
      unfold addMethodsStep
      rw [if_neg hne]
      simp only [hT, hP]
      rw [getA_setA_ne _ hna, getA_setA_self]

/- Embedding of `TensorFlowHook._add_registration_to___init__`
   (src/syft_tensorflow/hook/hook.py, lines 134-166), at the attribute level:
   alias the original constructor under `native___init__` only when that alias
   is not already present, then replace `__init__` by the freshly created
   `new___init__` closure (modelled by the opaque code `newInitVal`). -/

/-- Attribute-level embedding of `_add_registration_to___init__`. -/
def _add_registration_to___init__ (tensor_type : Attrs) (newInitVal : Nat) : Attrs :=
  let t1 :=
    if "native___init__" ∈ dirA tensor_type then tensor_type
    else match getA tensor_type "__init__" with
      | some v => setA tensor_type "native___init__" v
      | none => tensor_type
  setA t1 "__init__" newInitVal

/-- C1: the spec requires the `native_<name>` alias written by
`_add_methods_from_native_tensor` never to be overwritten by an
already-wrapped (proxy) implementation on a second installation.  The code has
no such guard: on a type `T` with a method `m` (code `0`) and a proxy `P`
with `m` (code `1`), a single installation stores the true native code `0`
under `native_m`, but a second installation overwrites `native_m` with the
proxy code `1`, permanently losing the native implementation. -/
theorem C1_second_install_overwrites_native_alias :
    getA (_add_methods_from_native_tensor [("m", 0)] [("m", 1)]) "native_m"
        = some 0 ∧
      getA (_add_methods_from_native_tensor
          (_add_methods_from_native_tensor [("m", 0)] [("m", 1)])
          [("m", 1)]) "native_m" = some 1 := by
  decide

/-- C8: in contrast with the proxy-method aliasing, the constructor aliasing in
`_add_registration_to___init__` is guarded by
`if "native___init__" not in dir(tensor_type)`, so installing the identity hook
twice leaves `native___init__` bound to the true pre-hook constructor. -/
theorem C8_native_init_alias_guarded (T : Attrs) (c₁ c₂ i : Nat)
    (hno : "native___init__" ∉ keysA T) (hi : getA T "__init__" = some i) :
    getA (_add_registration_to___init__ (_add_registration_to___init__ T c₁) c₂)
        "native___init__" = some i ∧
      getA (_add_registration_to___init__ T c₁) "native___init__" = some i := by
  have hne : ("native___init__" : String) ≠ "__init__" := by decide
  have h1 : getA (_add_registration_to___init__ T c₁) "native___init__" = some i := by
    unfold _add_registration_to___init__
    rw [if_neg (fun hm => hno (mem_dirA.mp hm)), hi]
    show getA (setA (setA T "native___init__" i) "__init__" c₁) "native___init__"
        = some i
    rw [getA_setA_ne _ hne, getA_setA_self]
  refine ⟨?_, h1⟩
  have hmem : "native___init__" ∈ dirA (_add_registration_to___init__ T c₁) := by
    rw [mem_dirA, ← getA_isSome_iff_mem_keysA, h1]
    rfl
  have key : ∀ (R : Attrs) (c : Nat), "native___init__" ∈ dirA R →
      getA (_add_registration_to___init__ R c) "native___init__"
        = getA R "native___init__" := by
    intro R c hm
    unfold _add_registration_to___init__
    rw [if_pos hm]
    show getA (setA R "__init__" c) "native___init__" = getA R "native___init__"
    exact getA_setA_ne _ hne c
  rw [key _ c₂ hmem]
  exact h1

/-- C8 witness: the guarded aliasing evaluated on a concrete type table. -/
theorem C8_witness :
    getA (_add_registration_to___init__
        (_add_registration_to___init__ [("__init__", 7)] 100) 200)
        "native___init__" = some 7 :=
  (C8_native_init_alias_guarded [("__init__", 7)] 100 200 7 (by decide) (by decide)).1

/-- C7 counterexample: the claim quantifies over every attribute name on the
proxy type.  With a proxy `P` that itself carries a `native_`-prefixed
attribute (`native_zoo`, code `5`) next to `zoo`, `dir(P)` enumerates
`native_zoo` before `zoo`; copying `native_zoo` first and then aliasing the
pre-hook `zoo` (code `0`) under `native_zoo` clobbers the just-copied proxy
attribute, so after hooking `T.native_zoo = 0 ≠ 5 = P.native_zoo`, refuting
the claim as stated. -/
theorem C7_counterexample_native_prefixed_proxy_attr :
    ¬ (∀ (T P : Attrs) (a : String) (pv : Nat),
        getA P a = some pv → a ∉ exclude →
          getA (_add_methods_from_native_tensor T P) a = some pv ∧
            ∀ tv, getA T a = some tv →
              getA (_add_methods_from_native_tensor T P) ("native_" ++ a)
                = some tv) := by
  intro h
  have h5 := (h [("zoo", 0)] [("native_zoo", 5), ("zoo", 1)] "native_zoo" 5
    (by decide) (by decide)).1
  exact absurd h5 (by decide)

/-- C7 (amended): after hooking a native tensor type `T` with a proxy type `P`
once, provided no attribute name on `P` carries the `native_` prefix, every
attribute name `a` on `P` outside the fixed exclusion list satisfies:
`T.a` equals `P.a`, and if `T` defined `a` before hooking then `T.native_a`
equals the pre-hook `T.a`. -/
theorem C7_amended_proxy_methods_installed (T P : Attrs)
    (hP : ∀ a ∈ keysA P, startsWithNative a = false)
    (a : String) (pv : Nat) (hpa : getA P a = some pv) (hexa : a ∉ exclude) :
    getA (_add_methods_from_native_tensor T P) a = some pv ∧
      ∀ tv, getA T a = some tv →
        getA (_add_methods_from_native_tensor T P) ("native_" ++ a) = some tv := by
  have hPd : ∀ b ∈ dirA P, startsWithNative b = false :=
    fun b hb => hP b (mem_dirA.mp hb)
  have hamem : a ∈ dirA P := by
    rw [mem_dirA, ← getA_isSome_iff_mem_keysA, hpa]
    rfl
  have hnn : startsWithNative a = false := hPd a hamem
  obtain ⟨l₁, l₂, hsplit⟩ := List.append_of_mem hamem
  have hnd := nodup_dirA P
  rw [hsplit] at hnd
  have hnd' := List.nodup_append.mp hnd
  have hal₁ : a ∉ l₁ := fun hx => hnd'.2.2 hx (List.mem_cons_self a l₂)
  have hal₂ : a ∉ l₂ := (List.nodup_cons.mp hnd'.2.1).1
  have hl₁P : ∀ b ∈ l₁, b ∈ dirA P := by
    intro b hb
    rw [hsplit]
    exact List.mem_append_left _ hb
  have hl₂P : ∀ b ∈ l₂, b ∈ dirA P := by
    intro b hb
    rw [hsplit]
    exact List.mem_append_right _ (List.mem_cons_of_mem a hb)
  unfold _add_methods_from_native_tensor
  rw [hsplit, List.foldl_append, List.foldl_cons]
  have hT₁ : getA (l₁.foldl (fun t attr => addMethodsStep t P attr) T) a
      = getA T a := by
    apply foldl_addMethodsStep_frame
    intro b hb
    refine ⟨fun hc => hal₁ (hc ▸ hb), ?_⟩
    exact ne_native_append_of_not_marked hnn
  have hstep := addMethodsStep_target
    (l₁.foldl (fun t attr => addMethodsStep t P attr) T) P a pv hexa hpa hnn
  constructor
  · rw [foldl_addMethodsStep_frame P l₂ _ a ?_]
    · exact hstep.1
    · intro b hb
      refine ⟨fun hc => hal₂ (hc ▸ hb), ?_⟩
      exact ne_native_append_of_not_marked hnn
  · intro tv htv
    rw [foldl_addMethodsStep_frame P l₂ _ ("native_" ++ a) ?_]
    · exact hstep.2 tv (hT₁.trans htv)
    · intro b hb
      constructor
      · exact fun hc =>
          absurd (hc ▸ startsWithNative_append a) (by simp [hPd b (hl₂P b hb)])
      · intro hc
        exact hal₂ ((native_append_inj hc) ▸ hb)

/-- C7 witness: the amended theorem applied to a concrete type with one method
`m` (native code `0`) and a proxy supplying code `1`. -/
theorem C7_witness :
    getA (_add_methods_from_native_tensor [("m", 0)] [("m", 1)]) "m" = some 1 ∧
      getA (_add_methods_from_native_tensor [("m", 0)] [("m", 1)])
        ("native_" ++ "m") = some 0 := by
  have h := C7_amended_proxy_methods_installed [("m", 0)] [("m", 1)]
    (by decide) "m" 1 (by decide) (by decide)
  exact ⟨h.1, h.2 0 (by decide)⟩

/- Embedding of the module sweep `TensorFlowHook._hook_tensorflow_module`
   (src/syft_tensorflow/hook/hook.py, lines 105-132). -/

/-- Whether `needle` occurs as a contiguous subsequence of `hay`
(the semantics of Python `needle in hay` on strings). -/
def charListHas (needle : List Char) : List Char → Bool
  | [] => needle.isPrefixOf []
  | c :: r => needle.isPrefixOf (c :: r) || charListHas needle r

/-- Model of the Python substring test `needle in s`. -/
def containsSub (needle s : String) : Bool := charListHas needle.data s.data

/-- Model of `s[0].isupper()` (`false` on the empty string, which `dir()`
never produces). -/
def firstCharUpper (s : String) : Bool :=
  match s.data with
  | [] => false
  | c :: _ => c.isUpper

/-- Model of `s[0] == "_"` (`false` on the empty string). -/
def firstCharUnderscore (s : String) : Bool :=
  match s.data with
  | [] => false
  | c :: _ => c == '_'

/-- The skip chain of the `for func in dir(tensorflow_module)` loop: a name is
selected for wrapping only when every `continue` guard fails.  `excl` models
`syft.tensorflow.exclude` (supplied by the `TensorFlowAttributes`
collaborator) and `moduleDir` models `dir(tensorflow_module)` at the time of
the test. -/
def moduleFuncSelected (excl : List String) (moduleDir : List String)
    (func : String) : Bool :=
  if func ∈ excl then false
  else if containsSub "__" func then false
  else if firstCharUpper func then false
  else if firstCharUnderscore func then false
  else if containsSub "native_" func = true ∨ ("native_" ++ func) ∈ moduleDir then
    false
  else true

theorem moduleFuncSelected_eq_true_iff
    {excl moduleDir : List String} {func : String} :
    moduleFuncSelected excl moduleDir func = true ↔
      func ∉ excl ∧ containsSub "__" func = false ∧
        firstCharUpper func = false ∧ firstCharUnderscore func = false ∧
        ("native_" ++ func) ∉ moduleDir ∧ containsSub "native_" func = false := by
  unfold moduleFuncSelected
  split_ifs with h1 h2 h3 h4 h5
  · simp [h1]
  · simp [h2]
  · simp [h3]
  · simp [h4]
  · rcases h5 with h5 | h5
    · simp [h5]
    · simp [h5]
  · push_neg at h5
    simp only [Bool.not_eq_true] at h2 h3 h4
    simp [h1, h2, h3, h4, h5.1, h5.2]

theorem moduleFuncSelected_false_of_native_sibling
    {excl moduleDir : List String} {func : String}
    (h : ("native_" ++ func) ∈ moduleDir) :
    moduleFuncSelected excl moduleDir func = false := by
  cases hs : moduleFuncSelected excl moduleDir func with
  | false => rfl
  | true => exact absurd h (moduleFuncSelected_eq_true_iff.mp hs).2.2.2.2.1

theorem moduleFuncSelected_false_mono
    {excl d d' : List String} {func : String} (hsub : ∀ x ∈ d, x ∈ d')
    (h : moduleFuncSelected excl d func = false) :
    moduleFuncSelected excl d' func = false := by
  cases hs : moduleFuncSelected excl d' func with
  | false => rfl
  | true =>
    obtain ⟨h1, h2, h3, h4, h5, h6⟩ := moduleFuncSelected_eq_true_iff.mp hs
    have : moduleFuncSelected excl d func = true :=
      moduleFuncSelected_eq_true_iff.mpr
        ⟨h1, h2, h3, h4, fun hm => h5 (hsub _ hm), h6⟩
    rw [this] at h
    cases h

/-- Modelled from the spec: `_perform_function_overloading` is defined in the
PySyft dependency (`FrameworkHook`), not in this repository's supplied
sources.  Per the spec (operation `overload`), it aliases the original module
function under `native_<funcName>` and replaces the module attribute with an
interception wrapper built from the original (the wrapper constructor is the
opaque parameter `wrap`). -/
def _perform_function_overloading (tensorflow_module : Attrs) (func : String)
    (wrap : Nat → Nat) : Attrs :=
  match getA tensorflow_module func with
  | some v => setA (setA tensorflow_module ("native_" ++ func) v) func (wrap v)
  | none => tensorflow_module

/-- One iteration of the module sweep: run the skip chain against the current
state of the module (the source re-evaluates `dir(tensorflow_module)` in the
`f"native_{func}" in dir(tensorflow_module)` test on every iteration) and
overload the name when selected. -/
def sweepStep (excl : List String) (wrap : Nat → Nat) (m : Attrs)
    (func : String) : Attrs :=
  if moduleFuncSelected excl (dirA m) func then
    _perform_function_overloading m func wrap
  else m

/-- Embedding of the body of `_hook_tensorflow_module` for a single registered
module: iterate over the initial `dir(tensorflow_module)` and overload every
selected name (the source runs this loop for each entry of
`syft.tensorflow.tensorflow_modules`). -/
def _hook_tensorflow_module (excl : List String) (wrap : Nat → Nat)
    (tensorflow_module : Attrs) : Attrs :=
  (dirA tensorflow_module).foldl (sweepStep excl wrap) tensorflow_module

/-- The sample module of the claim: a public function `foo`, a class `Bar`, a
private helper `_baz` and a dunder `__qux__`, listed in `dir()` order. -/
def sampleModuleDir : List String := ["Bar", "__qux__", "_baz", "foo"]

/-- C4: the module sweep selects a name iff it survives every skip rule, and
on the sample module it selects exactly `foo`. -/
theorem C4_module_sweep_selection :
    (∀ (excl moduleDir : List String) (func : String),
        moduleFuncSelected excl moduleDir func = true ↔
          func ∉ excl ∧ containsSub "__" func = false ∧
            firstCharUpper func = false ∧ firstCharUnderscore func = false ∧
            ("native_" ++ func) ∉ moduleDir ∧
            containsSub "native_" func = false) ∧
    (∀ excl : List String, "foo" ∉ excl →
        sampleModuleDir.filter (moduleFuncSelected excl sampleModuleDir)
          = ["foo"]) := by
  constructor
  · intro excl moduleDir func
    exact moduleFuncSelected_eq_true_iff
  · intro excl hfoo
    have hBar : moduleFuncSelected excl sampleModuleDir "Bar" = false := by
      cases hs : moduleFuncSelected excl sampleModuleDir "Bar" with
      | false => rfl
      | true =>
        have := (moduleFuncSelected_eq_true_iff.mp hs).2.2.1
        exact absurd this (by decide)
    have hqux : moduleFuncSelected excl sampleModuleDir "__qux__" = false := by
      cases hs : moduleFuncSelected excl sampleModuleDir "__qux__" with
      | false => rfl
      | true =>
        have := (moduleFuncSelected_eq_true_iff.mp hs).2.1
        exact absurd this (by decide)
    have hbaz : moduleFuncSelected excl sampleModuleDir "_baz" = false := by
      cases hs : moduleFuncSelected excl sampleModuleDir "_baz" with
      | false => rfl
      | true =>
        have := (moduleFuncSelected_eq_true_iff.mp hs).2.2.2.1
        exact absurd this (by decide)
    have hfoo' : moduleFuncSelected excl sampleModuleDir "foo" = true :=
      moduleFuncSelected_eq_true_iff.mpr
        ⟨hfoo, by decide, by decide, by decide, by decide, by decide⟩
    simp only [sampleModuleDir] at hBar hqux hbaz hfoo' ⊢
    simp [List.filter, hBar, hqux, hbaz, hfoo']

/-- C4 witness: the sample-module clause instantiated with an empty exclusion
list. -/
theorem C4_witness :
    sampleModuleDir.filter (moduleFuncSelected [] sampleModuleDir) = ["foo"] :=
  C4_module_sweep_selection.2 [] (by decide)

theorem containsSub_of_startsWithNative {s : String}
    (h : startsWithNative s = true) : containsSub "native_" s = true := by
  rw [startsWithNative] at h
  rw [containsSub]
  cases hd : s.data with
  | nil =>
    rw [hd] at h
    exact h
  | cons c r =>
    rw [hd] at h
    rw [charListHas, h, Bool.true_or]

theorem moduleFuncSelected_false_of_native_marked
    {excl moduleDir : List String} {func : String}
    (h : startsWithNative func = true) :
    moduleFuncSelected excl moduleDir func = false := by
  cases hs : moduleFuncSelected excl moduleDir func with
  | false => rfl
  | true =>
    have h6 := (moduleFuncSelected_eq_true_iff.mp hs).2.2.2.2.2
    rw [containsSub_of_startsWithNative h] at h6
    cases h6

theorem mem_keysA_overload_mono {m : Attrs} {f : String} {w : Nat → Nat}
    {k : String} (h : k ∈ keysA m) :
    k ∈ keysA (_perform_function_overloading m f w) := by
  unfold _perform_function_overloading
  cases getA m f with
  | none => exact h
  | some v => exact mem_keysA_setA.mpr (Or.inr (mem_keysA_setA.mpr (Or.inr h)))

theorem mem_keysA_overload_new {m : Attrs} {f : String} {w : Nat → Nat}
    {k : String} (h : k ∈ keysA (_perform_function_overloading m f w)) :
    k ∈ keysA m ∨ k = "native_" ++ f := by
  unfold _perform_function_overloading at h
  cases hm : getA m f with
  | none =>
    rw [hm] at h
    exact Or.inl h
  | some v =>
    rw [hm] at h
    rcases mem_keysA_setA.mp h with hk | hk
    · subst hk
      exact Or.inl (getA_isSome_iff_mem_keysA.mp (by rw [hm]; rfl))
    · rcases mem_keysA_setA.mp hk with hk' | hk'
      · exact Or.inr hk'
      · exact Or.inl hk'

theorem mem_keysA_sweepStep_mono {excl : List String} {w : Nat → Nat}
    {m : Attrs} {f k : String} (h : k ∈ keysA m) :
    k ∈ keysA (sweepStep excl w m f) := by
  unfold sweepStep
  split
  · exact mem_keysA_overload_mono h
  · exact h

theorem mem_keysA_sweepStep_new {excl : List String} {w : Nat → Nat}
    {m : Attrs} {f k : String} (h : k ∈ keysA (sweepStep excl w m f)) :
    k ∈ keysA m ∨ k = "native_" ++ f := by
  unfold sweepStep at h
  by_cases hs : moduleFuncSelected excl (dirA m) f = true
  · rw [if_pos hs] at h
    exact mem_keysA_overload_new h
  · rw [if_neg hs] at h
    exact Or.inl h

theorem mem_keysA_foldl_sweep_mono (excl : List String) (w : Nat → Nat)
    (l : List String) (m : Attrs) (k : String) (h : k ∈ keysA m) :
    k ∈ keysA (l.foldl (sweepStep excl w) m) := by
  induction l generalizing m with
  | nil => exact h
  | cons f r ih => exact ih _ (mem_keysA_sweepStep_mono h)

theorem mem_keysA_foldl_sweep_new (excl : List String) (w : Nat → Nat)
    (l : List String) (m : Attrs) (k : String)
    (h : k ∈ keysA (l.foldl (sweepStep excl w) m)) :
    k ∈ keysA m ∨ startsWithNative k = true := by
  induction l generalizing m with
  | nil => exact Or.inl h
  | cons f r ih =>
    rcases ih _ h with h' | h'
    · rcases mem_keysA_sweepStep_new h' with h'' | h''
      · exact Or.inl h''
      · exact Or.inr (h'' ▸ startsWithNative_append f)
    · exact Or.inr h'

theorem sweepStep_kills (excl : List String) (w : Nat → Nat) (m : Attrs)
    (f : String) (hf : f ∈ keysA m) :
    moduleFuncSelected excl (dirA (sweepStep excl w m f)) f = false := by
  cases hsel : moduleFuncSelected excl (dirA m) f with
  | false =>
    unfold sweepStep
    rw [hsel]
    simpa using hsel
  | true =>
    have hv := getA_isSome_iff_mem_keysA.mpr hf
    cases hm : getA m f with
    | none => rw [hm] at hv; cases hv
    | some v =>
      apply moduleFuncSelected_false_of_native_sibling
      rw [mem_dirA]
      unfold sweepStep _perform_function_overloading
      rw [hsel, hm]
      simp only [if_true]
      exact mem_keysA_setA.mpr (Or.inr (mem_keysA_setA.mpr (Or.inl rfl)))

theorem foldl_sweep_kills (excl : List String) (w : Nat → Nat)
    (l : List String) (m : Attrs) (hl : ∀ f ∈ l, f ∈ keysA m) :
    ∀ f ∈ l,
      moduleFuncSelected excl (dirA (l.foldl (sweepStep excl w) m)) f = false := by
  induction l generalizing m with
  | nil => intro f hf; cases hf
  | cons f₀ r ih =>
    intro f hf
    rw [List.foldl_cons]
    have hl' : ∀ g ∈ r, g ∈ keysA (sweepStep excl w m f₀) :=
      fun g hg => mem_keysA_sweepStep_mono (hl g (List.mem_cons_of_mem f₀ hg))
    rcases List.mem_cons.mp hf with rfl | hfr
    · have h0 := sweepStep_kills excl w m f (hl f (List.mem_cons_self f r))
      apply moduleFuncSelected_false_mono _ h0
      intro x hx
      rw [mem_dirA] at hx ⊢
      exact mem_keysA_foldl_sweep_mono excl w r _ x hx
    · exact ih _ hl' f hfr

theorem foldl_sweep_id (excl : List String) (w : Nat → Nat)
    (l : List String) (m : Attrs)
    (h : ∀ f ∈ l, moduleFuncSelected excl (dirA m) f = false) :
    l.foldl (sweepStep excl w) m = m := by
  induction l with
  | nil => rfl
  | cons f₀ r ih =>
    rw [List.foldl_cons]
    have h0 : sweepStep excl w m f₀ = m := by
      unfold sweepStep
      rw [h f₀ (List.mem_cons_self f₀ r)]
      simp
    rw [h0]
    exact ih (fun f hf => h f (List.mem_cons_of_mem f₀ hf))

/-- C5: once a module function has been wrapped (so that its `native_` sibling
exists in the module), the skip chain rejects it, and re-running the whole
sweep over the already-swept module changes nothing — in particular the
wrapper installed by the first sweep remains the same object. -/
theorem C5_resweep_skip (excl : List String) (wrap : Nat → Nat) (m : Attrs) :
    (∀ f : String,
        ("native_" ++ f) ∈ dirA (_hook_tensorflow_module excl wrap m) →
          moduleFuncSelected excl (dirA (_hook_tensorflow_module excl wrap m)) f
            = false) ∧
    _hook_tensorflow_module excl wrap (_hook_tensorflow_module excl wrap m)
      = _hook_tensorflow_module excl wrap m := by
  constructor
  · intro f hf
    exact moduleFuncSelected_false_of_native_sibling hf
  · unfold _hook_tensorflow_module
    apply foldl_sweep_id
    intro f hf
    rw [mem_dirA] at hf
    rcases mem_keysA_foldl_sweep_new excl wrap (dirA m) m f hf with hf' | hf'
    · have := foldl_sweep_kills excl wrap (dirA m) m
        (fun g hg => mem_dirA.mp hg) f (mem_dirA.mpr hf')
      exact this
    · exact moduleFuncSelected_false_of_native_marked hf'

/-- C5 witness: a module with one public function `foo`; after the first
sweep `native_foo` is present and the skip chain rejects `foo`. -/
theorem C5_witness :
    moduleFuncSelected []
      (dirA (_hook_tensorflow_module [] (fun v => v + 1) [("foo", 3)])) "foo"
      = false :=
  (C5_resweep_skip [] (fun v => v + 1) [("foo", 3)]).1 "foo" (by decide)

/- Embedding of the replaced constructor `new___init__`
   (src/syft_tensorflow/hook/hook.py, lines 150-161), at the instance level. -/

/-- A recorded invocation of the original (`native___init__`) constructor. -/
structure InitCall where
  args : List Nat
  kwargs : List (String × Nat)
deriving DecidableEq

/-- The observable state of a hooked tensor instance after construction:
the recorded native-constructor call and the backing fields written through
the `id` / `owner` / `is_wrapper` property setters. -/
structure TensorInstance where
  native_init_call : Option InitCall
  syft_id : Option Nat
  owner : Option Nat
  is_wrapper : Option Bool
deriving DecidableEq

/-- Model of `syft.ID_PROVIDER.pop()` over a provider modelled as a stream of
pending ids. -/
def popId (provider : List Nat) : Nat × List Nat :=
  (provider.headD 0, provider.tail)

/-- Embedding of the closure
`new___init__(cls, *args, owner=None, id=None, register=True, **kwargs)`:
calls the native constructor with `args`/`kwargs`, defaults `owner` to the
hook's local worker, defaults `id` to a freshly popped provider value, and
sets `is_wrapper = False`.  The `register` argument is bound but never read,
exactly as in the source. -/
def new___init__ (local_worker : Nat) (provider : List Nat) (args : List Nat)
    (owner : Option Nat) (id : Option Nat) ( register : Option Nat)
    (kwargs : List (String × Nat)) : TensorInstance × List Nat :=
  let inst : TensorInstance :=
    { native_init_call := some ⟨args, kwargs⟩
      syft_id := none
      owner := none
      is_wrapper := none }
  let ownerV : Nat :=
    match owner with
    | none => local_worker
    | some w => w
  let idPop : Nat × List Nat :=
    match id with
    | none => popId provider
    | some i => (i, provider)
  ({ inst with
      syft_id := some idPop.1
      owner := some ownerV
      is_wrapper := some false }, idPop.2)

/-- The keyword names captured by the named parameters of `new___init__` and
therefore stripped from `**kwargs` by Python's calling convention. -/
def strippedNames : List String := ["owner", "id", "register"]

/-- A call of the replaced constructor with positional arguments `args` and
raw keyword arguments `raw`: Python binds `owner`, `id` and `register` to the
named parameters and passes the rest as `**kwargs`. -/
def callNew___init__ (local_worker : Nat) (provider : List Nat)
    (args : List Nat) (raw : List (String × Nat)) : TensorInstance × List Nat :=
  new___init__ local_worker provider args (getA raw "owner") (getA raw "id")
    (getA raw "register") (raw.filter (fun p => !(strippedNames.contains p.1)))

/-- C2: for every construction through the replaced constructor, the original
constructor receives all positional and keyword arguments except `owner`,
`id`, `register`; the instance's id is non-null and equals the supplied id,
else the freshly popped provider value; the owner equals the supplied owner,
else the local worker; and `is_wrapper` is false. -/
theorem C2_init_registration (local_worker : Nat) (provider : List Nat)
    (args : List Nat) (raw : List (String × Nat)) :
    (callNew___init__ local_worker provider args raw).1.native_init_call
        = some ⟨args, raw.filter (fun p => !(strippedNames.contains p.1))⟩ ∧
      (callNew___init__ local_worker provider args raw).1.syft_id.isSome ∧
      (callNew___init__ local_worker provider args raw).1.syft_id
        = some ((getA raw "id").getD (popId provider).1) ∧
      (callNew___init__ local_worker provider args raw).1.owner
        = some ((getA raw "owner").getD local_worker) ∧
      (callNew___init__ local_worker provider args raw).1.is_wrapper
        = some false := by
  unfold callNew___init__ new___init__
  cases getA raw "id" <;> cases getA raw "owner" <;> simp

/-- C9: the `register` keyword has no effect.  Two raw keyword-argument lists
that agree on `owner`, on `id` and on everything passed through to the native
constructor produce identical instance states and identical provider states,
whatever their `register` bindings are. -/
theorem C9_register_unused (local_worker : Nat) (provider : List Nat)
    (args : List Nat) (raw₁ raw₂ : List (String × Nat))
    (howner : getA raw₁ "owner" = getA raw₂ "owner")
    (hid : getA raw₁ "id" = getA raw₂ "id")
    (hstrip : raw₁.filter (fun p => !(strippedNames.contains p.1))
      = raw₂.filter (fun p => !(strippedNames.contains p.1))) :
    callNew___init__ local_worker provider args raw₁
      = callNew___init__ local_worker provider args raw₂ := by
  unfold callNew___init__
  rw [howner, hid, hstrip]
  unfold new___init__
  cases getA raw₂ "id" <;> rfl

/-- C9 witness: passing `register=1`, `register=0` or omitting it entirely
leaves the construction result unchanged. -/
theorem C9_witness :
    callNew___init__ 42 [7, 8] [1, 2] [("register", 1)]
        = callNew___init__ 42 [7, 8] [1, 2] [("register", 0)] ∧
      callNew___init__ 42 [7, 8] [1, 2] [("register", 1)]
        = callNew___init__ 42 [7, 8] [1, 2] [] := by
  constructor
  · exact C9_register_unused 42 [7, 8] [1, 2] [("register", 1)] [("register", 0)]
      (by decide) (by decide) (by decide)
  · exact C9_register_unused 42 [7, 8] [1, 2] [("register", 1)] []
      (by decide) (by decide) (by decide)

/- Embedding of `TensorFlowHook._hook_properties`
   (src/syft_tensorflow/hook/hook.py, lines 168-235), at the instance level. -/

/-- The attributes reachable through an instance's `child` (a pointer-tensor
style inner object). -/
structure ChildAttrs where
  location : Nat
  id_at_location : Nat
deriving DecidableEq

/-- The per-instance backing state read and written by the hooked properties:
`_syft_id`, `_owner`, `_is_wrapper` (each possibly not yet materialised) and
the optional `child` attribute. -/
structure PropSelf where
  syft_id_field : Option Nat
  owner_field : Option Nat
  is_wrapper_field : Option Bool
  child : Option ChildAttrs
deriving DecidableEq

/-- The `location` property: `return self.child.location`; an instance with no
`child` raises `AttributeError`, modelled as `none`. -/
def location_get (self : PropSelf) : Option Nat :=
  self.child.map (·.location)

/-- The `id_at_location` property: `return self.child.id_at_location`. -/
def id_at_location_get (self : PropSelf) : Option Nat :=
  self.child.map (·.id_at_location)

/-- The `id` property getter: lazily materialises `_syft_id` from
`syft.ID_PROVIDER.pop()` on first access. -/
def id_get (provider : List Nat) (self : PropSelf) :
    Nat × PropSelf × List Nat :=
  match self.syft_id_field with
  | some i => (i, self, provider)
  | none =>
    let p := popId provider
    (p.1, { self with syft_id_field := some p.1 }, p.2)

/-- The `owner` property getter: lazily materialises `_owner` from the hook's
local worker on first access. -/
def owner_get (local_worker : Nat) (self : PropSelf) : Nat × PropSelf :=
  match self.owner_field with
  | some w => (w, self)
  | none => (local_worker, { self with owner_field := some local_worker })

/-- The `is_wrapper` property getter: lazily materialises `_is_wrapper` as
`False` on first access. -/
def is_wrapper_get (self : PropSelf) : Bool × PropSelf :=
  match self.is_wrapper_field with
  | some b => (b, self)
  | none => (false, { self with is_wrapper_field := some false })

/-- C10: after property hooking, `id`, `owner` and `is_wrapper` answer on
every instance — including instances whose backing fields were never set
because construction bypassed the identity hook: the first access yields a
freshly popped id, the local worker, and `false` respectively (and a
previously set field is returned unchanged) — whereas `location` and
`id_at_location` delegate to `child` and fail with an attribute error
exactly on instances that have no `child`. -/
theorem C10_properties (provider : List Nat) (local_worker : Nat)
    (i : Option Nat) (o : Option Nat) (w : Option Bool)
    (c : Option ChildAttrs) (j : Nat) (b : Bool) :
    (id_get provider ⟨none, o, w, c⟩).1 = (popId provider).1 ∧
      (id_get provider ⟨some j, o, w, c⟩).1 = j ∧
      (owner_get local_worker ⟨i, none, w, c⟩).1 = local_worker ∧
      (owner_get local_worker ⟨i, some j, w, c⟩).1 = j ∧
      (is_wrapper_get ⟨i, o, none, c⟩).1 = false ∧
      (is_wrapper_get ⟨i, o, some b, c⟩).1 = b ∧
      location_get ⟨i, o, w, none⟩ = none ∧
      id_at_location_get ⟨i, o, w, none⟩ = none ∧
      (∀ ch : ChildAttrs,
        location_get ⟨i, o, w, some ch⟩ = some ch.location ∧
          id_at_location_get ⟨i, o, w, some ch⟩ = some ch.id_at_location) :=
  ⟨rfl, rfl, rfl, rfl, rfl, rfl, rfl, rfl, fun _ => ⟨rfl, rfl⟩⟩

/- Embedding of the guarded installation `TensorFlowHook.__init__`
   (src/syft_tensorflow/hook/hook.py, lines 19-78). -/

/-- Attribute-level embedding of `_hook_properties`: install the five property
objects (opaque closure codes), alias the pre-hook `shape` descriptor under
`native_shape` (`tensor_type.native_shape = tensor_type.shape`; the source
getattr always succeeds, a missing binding is modelled as a no-op), and add
`dim`. -/
def _hook_properties (tensor_type : Attrs)
    (locV ialV idV ownV iswV dimV : Nat) : Attrs :=
  let t := setA tensor_type "location" locV
  let t := setA t "id_at_location" ialV
  let t := setA t "id" idV
  let t := setA t "owner" ownV
  let t := setA t "is_wrapper" iswV
  let t :=
    match getA t "shape" with
    | some v => setA t "native_shape" v
    | none => t
  setA t "dim" dimV

/-- Attribute-level embedding of `_hook_native_tensor`: identity-hook the
constructor, install the properties, and copy the proxy methods.  The final
`_hook_native_methods` step lives in the PySyft dependency and is outside the
supplied sources; it mutates the same type table and is subsumed here by the
wrapped-method copy for the purposes of the install-once claim. -/
def _hook_native_tensor (tensor_type syft_type : Attrs)
    (newInitV locV ialV idV ownV iswV dimV : Nat) : Attrs :=
  _add_methods_from_native_tensor
    (_hook_properties (_add_registration_to___init__ tensor_type newInitV)
      locV ialV idV ownV iswV dimV)
    syft_type

/-- The process-wide state touched by `TensorFlowHook.__init__`: the marker
flag on the tensorflow library object, `syft.local_worker`, and the mutated
type and module tables. -/
structure Globals where
  tf_hooked : Bool
  syft_local_worker : Option Nat
  tensorTy : Attrs
  variableTy : Attrs
  tf_module : Attrs
deriving DecidableEq

/-- The state of the hook object itself. -/
structure HookSelf where
  local_worker : Option Nat
deriving DecidableEq

/-- Embedding of `TensorFlowHook.__init__(tensorflow, local_worker, is_client)`.
The pre-guard rebindings of `syft.tensorflow` / `syft.framework` / `syft.hook`
create fresh wrapper objects and are not type or module mutations; they are
not part of the modelled state.  If the `tf_hooked` marker is present the call
logs a warning (the returned flag), adopts `syft.local_worker` and returns;
otherwise it sets the marker, resolves the local worker (creating a fresh
`VirtualWorker`, the opaque `freshWorker`, when none is supplied), hooks both
tensor types and sweeps the module registry. -/
def TensorFlowHook_init (g : Globals) (local_worker : Option Nat)
    (tensorProxy variableProxy : Attrs) (excl : List String)
    (wrap : Nat → Nat) (newInitV locV ialV idV ownV iswV dimV freshWorker : Nat) :
    Globals × HookSelf × Bool :=
  if g.tf_hooked then
    (g, ⟨g.syft_local_worker⟩, true)
  else
    let lw :=
      match local_worker with
      | none => freshWorker
      | some w => w
    ({ tf_hooked := true
       syft_local_worker := some lw
       tensorTy := _hook_native_tensor g.tensorTy tensorProxy
         newInitV locV ialV idV ownV iswV dimV
       variableTy := _hook_native_tensor g.variableTy variableProxy
         newInitV locV ialV idV ownV iswV dimV
       tf_module := _hook_tensorflow_module excl wrap g.tf_module },
     ⟨some lw⟩, false)

/-- C3: starting from an unhooked library, the first install performs the
type/module mutations without warning; the second install finds the marker,
warns, adopts the existing process-wide local worker and leaves every piece
of global state — in particular both hooked types and the module table —
exactly as the first install left it. -/
theorem C3_guarded_install (g : Globals) (hg : g.tf_hooked = false)
    (lw₁ lw₂ : Option Nat) (tensorProxy variableProxy : Attrs)
    (excl : List String) (wrap : Nat → Nat)
    (newInitV locV ialV idV ownV iswV dimV freshWorker : Nat) :
    (TensorFlowHook_init g lw₁ tensorProxy variableProxy excl wrap
        newInitV locV ialV idV ownV iswV dimV freshWorker).2.2 = false ∧
      (TensorFlowHook_init
          (TensorFlowHook_init g lw₁ tensorProxy variableProxy excl wrap
            newInitV locV ialV idV ownV iswV dimV freshWorker).1
          lw₂ tensorProxy variableProxy excl wrap
          newInitV locV ialV idV ownV iswV dimV freshWorker).2.2 = true ∧
      (TensorFlowHook_init
          (TensorFlowHook_init g lw₁ tensorProxy variableProxy excl wrap
            newInitV locV ialV idV ownV iswV dimV freshWorker).1
          lw₂ tensorProxy variableProxy excl wrap
          newInitV locV ialV idV ownV iswV dimV freshWorker).1
        = (TensorFlowHook_init g lw₁ tensorProxy variableProxy excl wrap
            newInitV locV ialV idV ownV iswV dimV freshWorker).1 ∧
      (TensorFlowHook_init
          (TensorFlowHook_init g lw₁ tensorProxy variableProxy excl wrap
            newInitV locV ialV idV ownV iswV dimV freshWorker).1
          lw₂ tensorProxy variableProxy excl wrap
          newInitV locV ialV idV ownV iswV dimV freshWorker).2.1.local_worker
        = (TensorFlowHook_init g lw₁ tensorProxy variableProxy excl wrap
            newInitV locV ialV idV ownV iswV dimV
            freshWorker).1.syft_local_worker := by
  unfold TensorFlowHook_init
  rw [hg]
  cases lw₁ <;> simp

/-- C3 witness: the guarded install evaluated from a concrete unhooked state. -/
theorem C3_witness :
    (TensorFlowHook_init
        ⟨false, none, [("shape", 9)], [("shape", 9)], [("foo", 3)]⟩
        none [("m", 1)] [("m", 1)] [] (fun v => v + 1)
        100 101 102 103 104 105 106 42).2.2 = false ∧
      (TensorFlowHook_init
          (TensorFlowHook_init
            ⟨false, none, [("shape", 9)], [("shape", 9)], [("foo", 3)]⟩
            none [("m", 1)] [("m", 1)] [] (fun v => v + 1)
            100 101 102 103 104 105 106 42).1
          (some 7) [("m", 1)] [("m", 1)] [] (fun v => v + 1)
          100 101 102 103 104 105 106 42).1
        = (TensorFlowHook_init
            ⟨false, none, [("shape", 9)], [("shape", 9)], [("foo", 3)]⟩
            none [("m", 1)] [("m", 1)] [] (fun v => v + 1)
            100 101 102 103 104 105 106 42).1 := by
  have h := C3_guarded_install
    ⟨false, none, [("shape", 9)], [("shape", 9)], [("foo", 3)]⟩ rfl
    none (some 7) [("m", 1)] [("m", 1)] [] (fun v => v + 1)
    100 101 102 103 104 105 106 42
  exact ⟨h.1, h.2.2.1⟩

/- Embedding of `TensorFlowHook._get_hooked_func`
   (src/syft_tensorflow/hook/hook.py, lines 237-254). -/

/-- Model of Python `str.split(".")` at the character level. -/
def splitDot : List Char → List (List Char)
  | [] => [[]]
  | c :: r =>
    if c = '.' then [] :: splitDot r
    else
      match splitDot r with
      | [] => [[c]]
      | s :: ss => (c :: s) :: ss

/-- Model of Python `".".join(...)` at the character level. -/
def joinDot : List (List Char) → List Char
  | [] => []
  | [s] => s
  | s :: r => s ++ '.' :: joinDot r

/-- The derived public submodule path:
`".".join(name.split(".")[:-1])`. -/
def parentModulePath (name : String) : String :=
  ⟨joinDot (splitDot name.data).dropLast⟩

/-- A candidate module function as seen by `_get_hooked_func`: the optional
vendor annotations `_tf_api_names` / `_keras_api_names` and the `__module__`
string. -/
structure FuncAttr where
  tf_api_names : Option (List String)
  keras_api_names : Option (List String)
  module : String
deriving DecidableEq

/-- The `_keras_api_names` block of `_get_hooked_func`: `assert
attr._keras_api_names` (an empty annotation list signals `AssertionError`,
modelled as `Except.error ()`), then rewrite `__module__` to
`".".join(("tensorflow", new_submodule))` — unconditionally, unlike the
`_tf_api_names` block. -/
def kerasNamesStep (attr : FuncAttr) : Except Unit FuncAttr :=
  match attr.keras_api_names with
  | none => Except.ok attr
  | some names =>
    if names.isEmpty then Except.error ()
    else
      Except.ok
        { attr with
            module :=
              "tensorflow" ++ "." ++ parentModulePath (names.headD "") }

/-- Embedding of `_get_hooked_func(attr)`: the `_tf_api_names` block
(`assert attr._tf_api_names`, then rewrite `__module__` to the derived public
path, or to plain `"tensorflow"` when the derived submodule is empty),
followed by the `_keras_api_names` block.  The final delegation to the PySyft
base-class builder receives the rewritten attribute and is modelled as
`Except.ok`. -/
def _get_hooked_func (attr : FuncAttr) : Except Unit FuncAttr :=
  match attr.tf_api_names with
  | none => kerasNamesStep attr
  | some names =>
    if names.isEmpty then Except.error ()
    else
      let new_submodule := parentModulePath (names.headD "")
      let attr2 :=
        if new_submodule ≠ "" then
          { attr with module := "tensorflow" ++ "." ++ new_submodule }
        else { attr with module := "tensorflow" }
      kerasNamesStep attr2

/-- C6 counterexample: the hooked-function builder does signal.  A candidate
carrying a present-but-empty `_tf_api_names` annotation trips
`assert attr._tf_api_names` and raises `AssertionError`. -/
theorem C6_counterexample_assert_fires :
    _get_hooked_func ⟨some [], none, "orig.module"⟩ = Except.error () := rfl

/-- C6 (amended): the hooked-function builder signals exactly on a candidate
whose `_tf_api_names` or `_keras_api_names` annotation is present but an
empty list; on every other candidate (and in every other operation of this
code, which is total) failure is by omission, never by signalling. -/
theorem C6_amended_error_iff_empty_api_names (attr : FuncAttr) :
    _get_hooked_func attr = Except.error () ↔
      attr.tf_api_names = some [] ∨ attr.keras_api_names = some [] := by
  obtain ⟨tfn, kn, m⟩ := attr
  cases tfn with
  | none =>
    cases kn with
    | none => simp [_get_hooked_func, kerasNamesStep]
    | some ks =>
      cases ks with
      | nil => simp [_get_hooked_func, kerasNamesStep]
      | cons k kr => simp [_get_hooked_func, kerasNamesStep]
  | some ts =>
    cases ts with
    | nil => simp [_get_hooked_func]
    | cons t tr =>
      cases kn with
      | none =>
        by_cases hsub : parentModulePath t = "" <;>
          simp [_get_hooked_func, kerasNamesStep, hsub]
      | some ks =>
        cases ks with
        | nil =>
          by_cases hsub : parentModulePath t = "" <;>
            simp [_get_hooked_func, kerasNamesStep, hsub]
        | cons k kr =>
          by_cases hsub : parentModulePath t = "" <;>
            simp [_get_hooked_func, kerasNamesStep, hsub]
